import Mathlib

/-
  Verification of the enhanced-reading-practice-platform frontend
  (React/TypeScript) against its natural-language specification.

  Shallow embedding: the pure functions of
  src/frontend/src/utils/security.ts, the state-update logic of
  src/frontend/src/components/RecordingReview.tsx, the rounding used in
  src/frontend/src/components/AdvancedAnalytics.tsx, the localStorage
  token plumbing of src/frontend/src/contexts/AuthContext.tsx,
  src/frontend/src/services/api.ts and the bulk-report component, and --
  where the Django backend is absent from the repository snapshot --
  models of the spec's Review Workflow, Recording Store and Flagging
  Engine contracts, are translated into executable Lean definitions.
-/

/- ===== Generic character/string helpers (JS string semantics) ===== -/

/-- Check that the first character list is a prefix of the second
    (JS String.prototype.startsWith on char lists). -/
def charsPrefix : List Char → List Char → Bool
  | [], _ => true
  | _ :: _, [] => false
  | a :: as, b :: bs => a = b && charsPrefix as bs

/-- Check that the needle occurs as a contiguous run inside the haystack
    (JS String.prototype.includes on char lists). -/
def charsIncludes (needle : List Char) : List Char → Bool
  | [] => charsPrefix needle []
  | c :: rest => charsPrefix needle (c :: rest) || charsIncludes needle rest

/-- Check that the haystack ends with the given suffix
    (JS regex anchored at the end). -/
def charsEndsWith (hay suffix : List Char) : Bool :=
  charsPrefix suffix.reverse hay.reverse

/-- JS String.prototype.toLowerCase, ASCII portion. -/
def strToLower (s : String) : String :=
  String.mk (s.data.map Char.toLower)

/-- JS String.prototype.includes. -/
def strIncludes (hay needle : String) : Bool :=
  charsIncludes needle.data hay.data

/- ===== security.ts : SecurityUtils.validatePassword ===== -/

/-- Result shape shared by validatePassword and validateFileUpload in
    src/frontend/src/utils/security.ts. -/
structure ValidationResult where
  isValid : Bool
  errors : List String
deriving DecidableEq, Repr

/-- The character class of the regex /[A-Z]/. -/
def isUppercaseChar (c : Char) : Bool := 'A' ≤ c && c ≤ 'Z'

/-- The character class of the regex /[a-z]/. -/
def isLowercaseChar (c : Char) : Bool := 'a' ≤ c && c ≤ 'z'

/-- The character class of the regex /\d/. -/
def isDigitChar (c : Char) : Bool := '0' ≤ c && c ≤ '9'

/-- The character class of the special-character regex in
    validatePassword (security.ts line 52). -/
def isSpecialChar (c : Char) : Bool :=
  c ∈ ['!', '@', '#', '$', '%', '^', '&', '*', '(', ')', ',', '.', '?',
       '\"', ':', '\x7b', '\x7d', '|', '<', '>']

/-- The commonPatterns array of validatePassword (security.ts line 57). -/
def commonPatterns : List String := ["123456", "password", "qwerty", "abc123"]

def passwordLengthMsg : String := "Password must be at least 8 characters long"
def passwordUpperMsg : String := "Password must contain at least one uppercase letter"
def passwordLowerMsg : String := "Password must contain at least one lowercase letter"
def passwordDigitMsg : String := "Password must contain at least one number"
def passwordSpecialMsg : String := "Password must contain at least one special character"
def passwordCommonMsg : String := "Password contains common patterns"

/-- SecurityUtils.validatePassword (security.ts lines 30-66): pushes one
    error message per violated rule, in source order; isValid is true
    exactly when the error list is empty. -/
def validatePassword (password : String) : ValidationResult :=
  let errors : List String :=
    (if password.length < 8 then [passwordLengthMsg] else [])
    ++ (if password.data.any isUppercaseChar then [] else [passwordUpperMsg])
    ++ (if password.data.any isLowercaseChar then [] else [passwordLowerMsg])
    ++ (if password.data.any isDigitChar then [] else [passwordDigitMsg])
    ++ (if password.data.any isSpecialChar then [] else [passwordSpecialMsg])
    ++ (if commonPatterns.any (fun pat => strIncludes (strToLower password) pat)
        then [passwordCommonMsg] else [])
  { isValid := errors.isEmpty, errors := errors }

/- ===== security.ts : APISecurityUtils.createRateLimiter ===== -/

/-- The while loop of the closure returned by createRateLimiter
    (security.ts lines 217-220): shift entries off the front while
    `now - requests[0] > timeWindow`. -/
def rateLimiterPrune (timeWindow now : Nat) (requests : List Nat) : List Nat :=
  requests.dropWhile (fun t => decide (timeWindow < now - t))

/-- One invocation of the closure returned by createRateLimiter
    (security.ts lines 214-229): prune stale timestamps, refuse when the
    window already holds maxRequests admitted calls, otherwise push the
    current time and admit. Returns the new requests array and the
    boolean result. -/
def rateLimiterCall (maxRequests timeWindow : Nat) (requests : List Nat) (now : Nat) :
    List Nat × Bool :=
  let pruned := rateLimiterPrune timeWindow now requests
  if maxRequests ≤ pruned.length then (pruned, false)
  else (pruned ++ [now], true)

/-- Repeated invocations of the limiter closure at the given call times,
    starting from the given requests array (freshly `[]` in
    createRateLimiter). Returns the final requests array and the list of
    admitted call times, in order. -/
def rateLimiterRun (maxRequests timeWindow : Nat) (requests : List Nat) :
    List Nat → List Nat × List Nat
  | [] => (requests, [])
  | now :: rest =>
    let step := rateLimiterCall maxRequests timeWindow requests now
    let next := rateLimiterRun maxRequests timeWindow step.1 rest
    (next.1, (if step.2 then [now] else []) ++ next.2)

/- ===== security.ts : SecurityUtils.validateFileUpload ===== -/

/-- The fields of the browser File object that validateFileUpload reads:
    name and size (bytes). -/
structure JsFile where
  name : String
  size : Nat
deriving DecidableEq, Repr

/-- The options argument of validateFileUpload: maxSize in MB and
    allowedTypes, both optional. -/
structure FileUploadOptions where
  maxSize : Option Nat
  allowedTypes : Option (List String)
deriving DecidableEq, Repr

/-- The JS expression `options.maxSize || 10` (security.ts line 79):
    undefined and 0 are both falsy, so both fall back to the default 10. -/
def effectiveMaxSize (options : FileUploadOptions) : Nat :=
  match options.maxSize with
  | none => 10
  | some n => if n = 0 then 10 else n

/-- The JS expression `file.name.split('.').pop()?.toLowerCase()`
    (security.ts line 89): everything after the last dot (the whole name
    if there is no dot), lowercased; empty when the name ends in a dot
    or is empty. -/
def fileExtension (name : String) : String :=
  String.mk ((name.data.foldl (fun acc c => if c = '.' then [] else acc ++ [c]) []).map Char.toLower)

/-- The dangerous-extension regex of validateFileUpload
    (security.ts line 96), case-insensitive, anchored at the end. -/
def dangerousExtensions : List String :=
  ["exe", "bat", "cmd", "com", "scr", "php", "asp", "jsp", "py", "pl"]

/-- The test of the dangerous-extension regex against a file name. -/
def hasDangerousName (name : String) : Bool :=
  dangerousExtensions.any (fun d => charsEndsWith (strToLower name).data ('.' :: d.data))

def fileSizeMsg (maxSize : Nat) : String :=
  "File size must be less than " ++ toString maxSize ++ "MB"
def fileTypeMsg (allowedTypes : List String) : String :=
  "File type must be one of: " ++ String.intercalate ", " allowedTypes
def fileDangerousMsg : String := "File type not allowed for security reasons"

/-- SecurityUtils.validateFileUpload (security.ts lines 71-105). -/
def validateFileUpload (file : JsFile) (options : FileUploadOptions) : ValidationResult :=
  let maxSize := effectiveMaxSize options
  let allowedTypes := options.allowedTypes.getD []
  let errors : List String :=
    (if maxSize * 1024 * 1024 < file.size then [fileSizeMsg maxSize] else [])
    ++ (if allowedTypes.length > 0 then
          (if fileExtension file.name = "" ∨ fileExtension file.name ∉ allowedTypes
           then [fileTypeMsg allowedTypes] else [])
        else [])
    ++ (if hasDangerousName file.name then [fileDangerousMsg] else [])
  { isValid := errors.isEmpty, errors := errors }

/- ===== types/index.ts : data model ===== -/

/-- The status union of the Recording interface
    (src/frontend/src/types/index.ts line 75). -/
inductive RecordingStatus
  | pending
  | reviewed
  | flagged
deriving DecidableEq, Repr

/-- The Recording interface (src/frontend/src/types/index.ts lines
    70-85). `duration: number | string` becomes a sum; optional fields
    become Option. -/
structure Recording where
  id : Nat
  student_name : String
  student_username : String
  story_title : String
  status : RecordingStatus
  grade : Option String
  teacher_feedback : Option String
  duration : Nat ⊕ String
  audio_file : Option String
  attempt_number : Nat
  fluency_score : Option Nat
  accuracy_score : Option Nat
  created_at : String
  updated_at : Option String
deriving DecidableEq, Repr

/-- The StudentAssignment interface (src/frontend/src/types/index.ts
    lines 58-68). -/
structure StudentAssignment where
  id : Nat
  assignment_title : String
  story_title : String
  story_id : Nat
  due_date : Option String
  attempts_used : Nat
  is_completed : Bool
  can_attempt : Bool
  created_at : String
deriving DecidableEq, Repr

/- ===== RecordingReview.tsx : handleSubmitReview state update ===== -/

/-- The per-recording update of handleSubmitReview
    (src/frontend/src/components/RecordingReview.tsx lines 98-102): the
    recording whose id matches the selected one gets status 'reviewed'
    and teacher_feedback from the form; every other field, in particular
    fluency_score and accuracy_score, is spread through unchanged. -/
def submitReviewLocalUpdate (selectedId : Nat) (feedback : String) (r : Recording) :
    Recording :=
  if r.id = selectedId then
    { r with status := RecordingStatus.reviewed, teacher_feedback := some feedback }
  else r

/-- The setRecordings call of handleSubmitReview
    (src/frontend/src/components/RecordingReview.tsx lines 97-103). -/
def submitReviewSetRecordings (selectedId : Nat) (feedback : String)
    (recs : List Recording) : List Recording :=
  recs.map (submitReviewLocalUpdate selectedId feedback)

/- ===== AdvancedAnalytics.tsx : rounding of displayed aggregates ===== -/

/-- JS Math.round on an exact rational: round half toward positive
    infinity. -/
def jsMathRound (x : ℚ) : ℤ := Int.floor (x + 1 / 2)

/-- JS Number.prototype.toFixed(1) on an exact rational, as a rational:
    round to one decimal. -/
def jsToFixed1 (x : ℚ) : ℚ := ((Int.floor (x * 10 + 1 / 2) : ℚ)) / 10

/-- The spec's stated rounding rule for aggregates: round to one decimal
    place (spec section 4.4). Written from the spec's words, to compare
    with the source's rounding. -/
def roundToOneDecimal (x : ℚ) : ℚ := ((Int.floor (x * 10 + 1 / 2) : ℚ)) / 10

/-- The completion-rate figure of the overview card
    (src/frontend/src/components/AdvancedAnalytics.tsx line 152):
    `Math.round(dashboardSummary.average_completion_rate || 0)`. -/
def renderOverviewAvgCompletion (averageCompletionRate : Option ℚ) : ℤ :=
  jsMathRound (averageCompletionRate.getD 0)

/-- The per-student completion-rate figure
    (src/frontend/src/components/AdvancedAnalytics.tsx line 288):
    `Math.round(student.completion_rate)`. -/
def renderStudentsCompletionRate (completionRate : ℚ) : ℤ :=
  jsMathRound completionRate

/-- The per-student average-score figures
    (src/frontend/src/components/AdvancedAnalytics.tsx lines 294 and
    299): `student.avg_fluency_score.toFixed(1)`. -/
def renderStudentsAvgScore (avgScore : ℚ) : ℚ :=
  jsToFixed1 avgScore

/- ===== localStorage token plumbing (AuthContext.tsx, api.ts,
         BulkReports in src/unnamed/part_005) ===== -/

/-- Browser localStorage, modelled as a partial map from keys to
    values. -/
def LocalStorage : Type := String → Option String

/-- localStorage.getItem. -/
def lsGetItem (store : LocalStorage) (key : String) : Option String := store key

/-- localStorage.setItem. -/
def lsSetItem (store : LocalStorage) (key value : String) : LocalStorage :=
  fun k => if k = key then some value else store k

/-- localStorage.removeItem. -/
def lsRemoveItem (store : LocalStorage) (key : String) : LocalStorage :=
  fun k => if k = key then none else store k

/-- localStorage with no keys set. -/
def emptyLocalStorage : LocalStorage := fun _ => none

/-- The storage operations the login flow can perform: login stores the
    token under 'authToken' (AuthContext.tsx line 55); logout removes
    'authToken' (line 66); a failed profile fetch on init removes
    'authToken' (line 43); logout inside authAPI also removes
    'authToken' (api.ts line 48). -/
inductive AuthOp
  | login (token : String)
  | logout
  | initAuthFailure
deriving DecidableEq, Repr

/-- Effect of one login-flow operation on localStorage. -/
def applyAuthOp (store : LocalStorage) : AuthOp → LocalStorage
  | AuthOp.login token => lsSetItem store "authToken" token
  | AuthOp.logout => lsRemoveItem store "authToken"
  | AuthOp.initAuthFailure => lsRemoveItem store "authToken"

/-- The storage states reachable through the login flow alone: any
    sequence of login-flow operations applied to empty storage. -/
def runAuthOps (ops : List AuthOp) : LocalStorage :=
  ops.foldl applyAuthOp emptyLocalStorage

/-- The token the bulk-report download reads
    (src/unnamed/part_005 line 59): `localStorage.getItem('token')`. -/
def bulkReportToken (store : LocalStorage) : Option String :=
  lsGetItem store "token"

/-- The Authorization header value the bulk-report download sends
    (src/unnamed/part_005 line 62): the JS template
    `Token ${token}` renders a null token as the text "Token null". -/
def bulkReportAuthHeader (store : LocalStorage) : String :=
  match bulkReportToken store with
  | none => "Token null"
  | some t => "Token " ++ t

/-- The Authorization header the axios request interceptor attaches
    (src/frontend/src/services/api.ts lines 31-37): reads 'authToken'
    and only sets the header when the token is truthy. -/
def apiRequestAuthHeader (store : LocalStorage) : Option String :=
  match lsGetItem store "authToken" with
  | none => none
  | some t => if t = "" then none else some ("Token " ++ t)

/- ===== Spec-modelled backend contracts (the Django backend is not part
         of the repository snapshot under src/; these definitions follow
         the spec's words, sections 4.1-4.3 and 5) ===== -/

/-- Modelled from the spec: the error kinds of the Review Workflow
    contract (spec section 4.2); the Django review endpoint itself is
    missing from src/, only its caller recordingsAPI.submitReview is
    present. -/
inductive ReviewError
  | NotFound
  | AlreadyReviewed
  | InvalidScore
deriving DecidableEq, Repr

/-- The overall-grade bucket of a review
    (src/frontend/src/types/index.ts line 90). -/
inductive ReviewGrade
  | excellent
  | good
  | needs_practice
deriving DecidableEq, Repr

/-- Serialized form of a review grade, as the Recording interface keeps
    grade as a plain string. -/
def gradeStr : ReviewGrade → String
  | ReviewGrade.excellent => "excellent"
  | ReviewGrade.good => "good"
  | ReviewGrade.needs_practice => "needs_practice"

/-- Modelled from the spec: the Review Workflow operation (spec section
    4.2), whose backend implementation is missing from src/. Given the
    recording store and a review payload it fails with NotFound when the
    recording id does not exist, AlreadyReviewed when its status is not
    pending (leaving the store unchanged), InvalidScore when a score
    lies outside 1-5, and otherwise writes scores, feedback, grade and
    status reviewed. Returns the (possibly updated) store and the
    outcome. -/
def submitReviewWorkflow (recs : List Recording) (recordingId : Nat)
    (fluency accuracy : Nat) (feedback : String) (grade : ReviewGrade) :
    List Recording × Except ReviewError Unit :=
  match recs.find? (fun r => r.id == recordingId) with
  | none => (recs, Except.error ReviewError.NotFound)
  | some r =>
    if r.status ≠ RecordingStatus.pending then
      (recs, Except.error ReviewError.AlreadyReviewed)
    else if fluency < 1 ∨ 5 < fluency ∨ accuracy < 1 ∨ 5 < accuracy then
      (recs, Except.error ReviewError.InvalidScore)
    else
      (recs.map (fun x =>
        if x.id = recordingId then
          { x with status := RecordingStatus.reviewed,
                   fluency_score := some fluency,
                   accuracy_score := some accuracy,
                   teacher_feedback := some feedback,
                   grade := some (gradeStr grade) }
        else x),
       Except.ok ())

/-- Modelled from the spec: the upload error kinds of the Recording
    Store contract (spec sections 4.1 and 7); the Django upload endpoint
    is missing from src/. -/
inductive UploadError
  | PayloadTooLarge
  | UnsupportedMediaType
  | AttemptLimitExceeded
deriving DecidableEq, Repr

/-- Modelled from the spec: the attempt-limit data of an assignment as
    the Recording Store sees it (spec sections 3 and 4.1) - max attempts
    or a sentinel "unlimited", plus the caller's attempts-used. -/
structure AssignmentLimits where
  unlimited : Bool
  maxAttempts : Nat
  attemptsUsed : Nat
deriving DecidableEq, Repr

/-- Modelled from the spec: whether a further attempt is allowed (spec
    section 4.1): the attempts-used must be below max-attempts or the
    assignment must allow unlimited attempts. This is the predicate the
    backend serves to the frontend as the can_attempt field. -/
def canAttempt (lim : AssignmentLimits) : Bool :=
  lim.unlimited || lim.attemptsUsed < lim.maxAttempts

/-- Modelled from the spec: an upload request as the Recording Store
    contract describes it (spec section 4.1), reduced to the fields the
    validation reads. -/
structure UploadRequest where
  payloadSize : Nat
  mimeType : String
  assignment : Option AssignmentLimits
deriving DecidableEq, Repr

/-- Modelled from the spec: the validation chain of the Recording Store
    upload (spec section 4.1), whose backend implementation is missing
    from src/: reject PayloadTooLarge when the payload exceeds the
    configured ceiling, UnsupportedMediaType when the type is outside
    the allowed set, AttemptLimitExceeded when an assignment is present
    and its attempt allowance is exhausted; accept otherwise. -/
def uploadRecordingValidate (sizeCeiling : Nat) (allowedTypes : List String)
    (req : UploadRequest) : Except UploadError Unit :=
  if sizeCeiling < req.payloadSize then Except.error UploadError.PayloadTooLarge
  else if req.mimeType ∉ allowedTypes then Except.error UploadError.UnsupportedMediaType
  else
    match req.assignment with
    | none => Except.ok ()
    | some lim =>
      if canAttempt lim then Except.ok ()
      else Except.error UploadError.AttemptLimitExceeded

/-- The record-control disabled expression of the story reader
    (src/frontend/src/components/StoryReader.tsx line 174):
    `disabled={assignment && !assignment.can_attempt}` - disabled
    exactly when an assignment is present and can_attempt is false. -/
def recordButtonDisabled (assignment : Option StudentAssignment) : Bool :=
  match assignment with
  | some a => !a.can_attempt
  | none => false

/-- Modelled from the spec: one atomic attempt-limit check and counter
    increment (spec section 5's per-assignment-per-student serialization
    point; the backend is missing from src/). Because the spec mandates
    the check and the increment happen atomically, a set of concurrent
    uploads is exactly an arbitrary sequence of these steps. Returns the
    new attempts-used and whether the upload was accepted. -/
def attemptUploadStep (unlimited : Bool) (maxAttempts used : Nat) : Nat × Bool :=
  if unlimited || used < maxAttempts then (used + 1, true) else (used, false)

/-- Modelled from the spec: a trace of n sequential (serialized) upload
    attempts against one (student, assignment) pair, tracking the final
    attempts-used and how many uploads were accepted. -/
def runUploadTrace (unlimited : Bool) (maxAttempts : Nat) (used : Nat) :
    Nat → Nat × Nat
  | 0 => (used, 0)
  | Nat.succ n =>
    let step := attemptUploadStep unlimited maxAttempts used
    let rest := runUploadTrace unlimited maxAttempts step.1 n
    (rest.1, (if step.2 then 1 else 0) + rest.2)

/-- Modelled from the spec: a StudentFlag row (spec section 3); the
    analytics backend is missing from src/. -/
structure StudentFlag where
  id : Nat
  student_id : Nat
  flag_type : String
  severity : String
  description : String
  resolved : Bool
  resolution_notes : Option String
deriving DecidableEq, Repr

/-- Modelled from the spec: one flag emission of the Analytics engine
    (spec section 4.3): a (student, flag type) pair with a computed
    severity and description. -/
structure FlagEmission where
  student_id : Nat
  flag_type : String
  severity : String
  description : String
deriving DecidableEq, Repr

/-- Whether a stored flag is the unresolved flag of the given
    (student, flag type) pair. -/
def flagMatches (studentId : Nat) (flagType : String) (f : StudentFlag) : Bool :=
  !f.resolved && f.student_id == studentId && f.flag_type == flagType

/-- Modelled from the spec: update the severity and description of the
    first unresolved flag of the emission's pair in place (spec section
    4.3: "it may update severity/description of an existing unresolved
    flag in place rather than creating a duplicate"). -/
def updateUnresolvedFlag (e : FlagEmission) : List StudentFlag → List StudentFlag
  | [] => []
  | f :: rest =>
    if flagMatches e.student_id e.flag_type f then
      { f with severity := e.severity, description := e.description } :: rest
    else f :: updateUnresolvedFlag e rest

/-- Modelled from the spec: how the Analytics engine materializes one
    emission (spec section 4.3): if an unresolved flag of the same
    (student, flag type) pair exists, update it in place; otherwise
    insert a new unresolved flag. -/
def applyFlagEmission (flags : List StudentFlag) (e : FlagEmission) : List StudentFlag :=
  if flags.any (flagMatches e.student_id e.flag_type) then
    updateUnresolvedFlag e flags
  else
    flags ++ [{ id := flags.length, student_id := e.student_id,
                flag_type := e.flag_type, severity := e.severity,
                description := e.description, resolved := false,
                resolution_notes := none }]

/-- Modelled from the spec: one engine run over its (deterministic)
    emissions, materialized left to right (spec section 4.3); the
    engine's backend implementation is missing from src/. -/
def runFlagEngine (flags : List StudentFlag) (emissions : List FlagEmission) :
    List StudentFlag :=
  emissions.foldl applyFlagEmission flags

/-- Number of unresolved flags stored for a (student, flag type) pair. -/
def unresolvedCount (flags : List StudentFlag) (studentId : Nat) (flagType : String) :
    Nat :=
  (flags.filter (flagMatches studentId flagType)).length

/- ===== Concrete example inputs used by counterexamples and witnesses ===== -/

/-- A freshly uploaded, pending recording with no scores. -/
def pendingRecordingExample : Recording :=
  { id := 1, student_name := "Alice Jones", student_username := "alice",
    story_title := "The Tortoise and the Hare", status := RecordingStatus.pending,
    grade := none, teacher_feedback := none, duration := Sum.inl 60,
    audio_file := some "recordings/1.webm", attempt_number := 1,
    fluency_score := none, accuracy_score := none,
    created_at := "2024-01-01T00:00:00Z", updated_at := none }

/-- An already reviewed recording. -/
def reviewedRecordingExample : Recording :=
  { pendingRecordingExample with
    id := 2, status := RecordingStatus.reviewed,
    fluency_score := some 4, accuracy_score := some 3,
    teacher_feedback := some "Good pacing", grade := some "good" }

/-- A non-unlimited assignment whose attempt allowance is exhausted. -/
def exhaustedAssignmentLimits : AssignmentLimits :=
  { unlimited := false, maxAttempts := 3, attemptsUsed := 3 }

/-- The student's view of that exhausted assignment. -/
def exhaustedStudentAssignment : StudentAssignment :=
  { id := 7, assignment_title := "Read aloud", story_title := "The Tortoise and the Hare",
    story_id := 5, due_date := none, attempts_used := 3, is_completed := true,
    can_attempt := false, created_at := "2024-01-02T00:00:00Z" }

/-- An upload against that exhausted assignment. -/
def exhaustedUploadRequest : UploadRequest :=
  { payloadSize := 100, mimeType := "audio/webm",
    assignment := some exhaustedAssignmentLimits }

/-- A flag store holding one unresolved submission-gap flag. -/
def flagStoreExample : List StudentFlag :=
  [{ id := 0, student_id := 9, flag_type := "submission_gap", severity := "medium",
     description := "8 days since last submission", resolved := false,
     resolution_notes := none }]

/-- An engine re-run emitting the same (student, flag type) pair again. -/
def flagEmissionsExample : List FlagEmission :=
  [{ student_id := 9, flag_type := "submission_gap", severity := "high",
     description := "12 days since last submission" }]

/- =====================  Theorems  ===================== -/

/- ----- C1 : recording status transitions and score presence ----- -/

/-- C1 is refuted as stated: handleSubmitReview's state update
    (RecordingReview.tsx lines 97-103) sets the selected recording's
    status to reviewed without setting either score, so after reviewing
    a pending recording that has no scores, the recording has status
    reviewed and both scores absent - "scores are present if and only
    if status is reviewed" fails, as does "every operation that sets a
    recording's status to reviewed also sets both scores". -/
theorem c1_counterexample :
    pendingRecordingExample.status = RecordingStatus.pending
    ∧ pendingRecordingExample.fluency_score = none
    ∧ pendingRecordingExample.accuracy_score = none
    ∧ (submitReviewSetRecordings 1 "Good pacing" [pendingRecordingExample]).map
        (fun r => (r.status, r.fluency_score, r.accuracy_score))
        = [(RecordingStatus.reviewed, none, none)] := by
  refine ⟨rfl, rfl, rfl, ?_⟩
  rfl

/-- C1 (amended): handleSubmitReview's state update transitions only the
    recording whose id matches the selected one, setting its status to
    reviewed and its teacher_feedback to the form feedback; it leaves
    every other field - in particular the fluency and accuracy scores -
    unchanged, and leaves all other recordings unchanged. The status
    never moves backward to pending, but the update does not set the
    scores, so score presence is not tied to the reviewed status. -/
theorem c1_reviewUpdateBehaviour (selectedId : Nat) (feedback : String) (r : Recording) :
    ((submitReviewLocalUpdate selectedId feedback r).fluency_score = r.fluency_score
      ∧ (submitReviewLocalUpdate selectedId feedback r).accuracy_score = r.accuracy_score)
    ∧ (r.id = selectedId →
        (submitReviewLocalUpdate selectedId feedback r).status = RecordingStatus.reviewed
        ∧ (submitReviewLocalUpdate selectedId feedback r).teacher_feedback = some feedback)
    ∧ (r.id ≠ selectedId → submitReviewLocalUpdate selectedId feedback r = r)
    ∧ ((submitReviewLocalUpdate selectedId feedback r).status = RecordingStatus.pending
        → r.status = RecordingStatus.pending) := by
  unfold submitReviewLocalUpdate
  by_cases h : r.id = selectedId <;> simp [h]

/-- Witness for c1_reviewUpdateBehaviour at the concrete pending
    recording: the update sets status reviewed while keeping the absent
    scores. -/
theorem c1_reviewUpdateBehaviour_witness :
    (submitReviewLocalUpdate 1 "Good pacing" pendingRecordingExample).status
      = RecordingStatus.reviewed
    ∧ (submitReviewLocalUpdate 1 "Good pacing" pendingRecordingExample).fluency_score
      = pendingRecordingExample.fluency_score :=
  ⟨((c1_reviewUpdateBehaviour 1 "Good pacing" pendingRecordingExample).2.1 (by rfl)).1,
   (c1_reviewUpdateBehaviour 1 "Good pacing" pendingRecordingExample).1.1⟩

/- ----- C8 : bulk-report download reads the wrong localStorage key ----- -/

/-- Helper: no login-flow operation touches the key 'token'. -/
theorem applyAuthOp_token_key (s : LocalStorage) (op : AuthOp) :
    lsGetItem (applyAuthOp s op) "token" = lsGetItem s "token" := by
  cases op <;>
    simp only [applyAuthOp, lsGetItem, lsSetItem, lsRemoveItem] <;>
    rw [if_neg (by decide)]

/-- Helper: login-flow operation sequences leave 'token' unset. -/
theorem runAuthOps_token_none (ops : List AuthOp) :
    lsGetItem (runAuthOps ops) "token" = none := by
  suffices h : ∀ s : LocalStorage, lsGetItem s "token" = none →
      lsGetItem (List.foldl applyAuthOp s ops) "token" = none from
    h emptyLocalStorage rfl
  induction ops with
  | nil => intro s hs; simpa using hs
  | cons op rest ih =>
    intro s hs
    simpa using ih (applyAuthOp s op) ((applyAuthOp_token_key s op).trans hs)

/-- C8: the login flow stores the authentication token only under
    'authToken' (AuthContext.tsx line 55, read back by the axios
    interceptor in api.ts lines 31-37), while the bulk-report download
    reads localStorage under 'token' (src/unnamed/part_005 line 59).
    Hence in every storage state reachable through the login flow alone
    the value the report download reads is none, its Authorization
    header is the constant text "Token null" - independent of whatever
    token was stored - and after a login the interceptor does find the
    token under 'authToken'. -/
theorem c8_bulkReportTokenMismatch (ops : List AuthOp) (token : String) :
    bulkReportToken (runAuthOps ops) = none
    ∧ bulkReportAuthHeader (runAuthOps ops) = "Token null"
    ∧ lsGetItem (runAuthOps (ops ++ [AuthOp.login token])) "authToken" = some token := by
  refine ⟨runAuthOps_token_none ops, ?_, ?_⟩
  · unfold bulkReportAuthHeader bulkReportToken
    rw [runAuthOps_token_none ops]
  · unfold runAuthOps
    rw [List.foldl_append]
    simp [List.foldl_cons, List.foldl_nil, applyAuthOp, lsGetItem, lsSetItem]

/- ----- C2 : review workflow guards ----- -/

/-- C2: the Review Workflow (modelled from spec section 4.2, the backend
    being absent from src/) rejects a review of a non-pending recording
    with AlreadyReviewed and leaves the store unchanged; it rejects a
    missing recording with NotFound; it rejects an out-of-range score on
    a pending recording with InvalidScore; and it succeeds only when the
    recording exists, its status is pending and both scores lie in
    1-5. -/
theorem c2_reviewWorkflowGuards (recs : List Recording) (recordingId fluency accuracy : Nat)
    (feedback : String) (grade : ReviewGrade) :
    (∀ r, recs.find? (fun x => x.id == recordingId) = some r →
       r.status ≠ RecordingStatus.pending →
       submitReviewWorkflow recs recordingId fluency accuracy feedback grade
         = (recs, Except.error ReviewError.AlreadyReviewed))
    ∧ (recs.find? (fun x => x.id == recordingId) = none →
       submitReviewWorkflow recs recordingId fluency accuracy feedback grade
         = (recs, Except.error ReviewError.NotFound))
    ∧ (∀ r, recs.find? (fun x => x.id == recordingId) = some r →
       r.status = RecordingStatus.pending →
       (fluency < 1 ∨ 5 < fluency ∨ accuracy < 1 ∨ 5 < accuracy) →
       submitReviewWorkflow recs recordingId fluency accuracy feedback grade
         = (recs, Except.error ReviewError.InvalidScore))
    ∧ ((submitReviewWorkflow recs recordingId fluency accuracy feedback grade).2
         = Except.ok () →
       ∃ r, recs.find? (fun x => x.id == recordingId) = some r
         ∧ r.status = RecordingStatus.pending
         ∧ 1 ≤ fluency ∧ fluency ≤ 5 ∧ 1 ≤ accuracy ∧ accuracy ≤ 5) := by
  refine ⟨?_, ?_, ?_, ?_⟩
  · intro r hr hst
    simp only [submitReviewWorkflow, hr]
    rw [if_pos hst]
  · intro h
    simp only [submitReviewWorkflow, h]
  · intro r hr hst hbad
    simp only [submitReviewWorkflow, hr]
    rw [if_neg (fun hne => hne hst), if_pos hbad]
  · intro hok
    rcases hfind : recs.find? (fun x => x.id == recordingId) with _ | r
    · simp only [submitReviewWorkflow, hfind] at hok
      exact Except.noConfusion hok
    · by_cases hst : r.status = RecordingStatus.pending
      · by_cases hbad : fluency < 1 ∨ 5 < fluency ∨ accuracy < 1 ∨ 5 < accuracy
        · simp only [submitReviewWorkflow, hfind] at hok
          rw [if_neg (fun hne => hne hst), if_pos hbad] at hok
          simp at hok
        · refine ⟨r, hfind, hst, ?_⟩
          push_neg at hbad
          omega
      · simp only [submitReviewWorkflow, hfind] at hok
        rw [if_pos hst] at hok
        simp at hok

/-- Witness for c2_reviewWorkflowGuards: a review of the already
    reviewed concrete recording is rejected with AlreadyReviewed and the
    store is unchanged. -/
theorem c2_reviewWorkflowGuards_witness :
    submitReviewWorkflow [reviewedRecordingExample] 2 4 3 "Nice" ReviewGrade.good
      = ([reviewedRecordingExample], Except.error ReviewError.AlreadyReviewed) :=
  (c2_reviewWorkflowGuards [reviewedRecordingExample] 2 4 3 "Nice" ReviewGrade.good).1
    reviewedRecordingExample (by decide) (by decide)

/- ----- C4 : exhausted attempt allowance blocks the upload path ----- -/

/-- C4: when a non-unlimited assignment's attempts-used has reached its
    max-attempts (so can_attempt is false), the upload validation
    (modelled from spec section 4.1, the backend being absent from src/)
    never accepts the submission, rejects it with AttemptLimitExceeded
    whenever size and type validation pass, and the story reader's
    record control (StoryReader.tsx line 174) is disabled. -/
theorem c4_attemptLimitBlocksUpload (sizeCeiling : Nat) (allowedTypes : List String)
    (req : UploadRequest) (lim : AssignmentLimits) (sa : StudentAssignment)
    (hassign : req.assignment = some lim)
    (hunlim : lim.unlimited = false)
    (hused : lim.maxAttempts ≤ lim.attemptsUsed)
    (hsa : sa.can_attempt = canAttempt lim) :
    uploadRecordingValidate sizeCeiling allowedTypes req ≠ Except.ok ()
    ∧ (req.payloadSize ≤ sizeCeiling → req.mimeType ∈ allowedTypes →
        uploadRecordingValidate sizeCeiling allowedTypes req
          = Except.error UploadError.AttemptLimitExceeded)
    ∧ recordButtonDisabled (some sa) = true := by
  have hcan : canAttempt lim = false := by
    simp only [canAttempt, hunlim, Bool.false_or, decide_eq_false_iff_not]
    omega
  refine ⟨?_, ?_, ?_⟩
  · unfold uploadRecordingValidate
    rw [hassign]
    split_ifs <;> simp_all
  · intro hsize htype
    unfold uploadRecordingValidate
    rw [if_neg (by omega), if_neg (fun hno => hno htype), hassign]
    simp [hcan]
  · simp [recordButtonDisabled, hsa, hcan]

/-- Witness for c4_attemptLimitBlocksUpload at the concrete exhausted
    assignment. -/
theorem c4_attemptLimitBlocksUpload_witness :
    uploadRecordingValidate 1000 ["audio/webm"] exhaustedUploadRequest
      = Except.error UploadError.AttemptLimitExceeded
    ∧ recordButtonDisabled (some exhaustedStudentAssignment) = true := by
  have h := c4_attemptLimitBlocksUpload 1000 ["audio/webm"] exhaustedUploadRequest
    exhaustedAssignmentLimits exhaustedStudentAssignment
    (by rfl) (by rfl) (by decide) (by decide)
  exact ⟨h.2.1 (by decide) (by decide), h.2.2⟩

/- ----- C7 : serialized attempt-limit checks never exceed the limit ----- -/

/-- C7: with the spec-mandated per-(student, assignment) serialization
    point (spec section 5), a set of concurrent uploads is an arbitrary
    sequence of atomic check-and-increment steps; over any such sequence
    on a non-unlimited assignment, starting from attempts-used below the
    limit, the number of accepted recordings never exceeds
    max-attempts minus the starting count - in particular at most
    max_attempts recordings are ever accepted from a fresh assignment,
    whatever the interleaving. -/
theorem c7_attemptLimitSerialized (maxAttempts used n : Nat)
    (h : used ≤ maxAttempts) :
    (runUploadTrace false maxAttempts used n).2 ≤ maxAttempts - used
    ∧ (runUploadTrace false maxAttempts used n).1
        = used + (runUploadTrace false maxAttempts used n).2
    ∧ (runUploadTrace false maxAttempts 0 n).2 ≤ maxAttempts := by
  suffices hgen : ∀ m u, u ≤ maxAttempts →
      (runUploadTrace false maxAttempts u m).2 ≤ maxAttempts - u
      ∧ (runUploadTrace false maxAttempts u m).1
          = u + (runUploadTrace false maxAttempts u m).2 by
    refine ⟨(hgen n used h).1, (hgen n used h).2, ?_⟩
    have := (hgen n 0 (Nat.zero_le _)).1
    omega
  intro m
  induction m with
  | zero => intro u hu; simp [runUploadTrace]
  | succ k ih =>
    intro u hu
    by_cases hlt : u < maxAttempts
    · have h1 : (runUploadTrace false maxAttempts u (k + 1)).1
          = (runUploadTrace false maxAttempts (u + 1) k).1 := by
        simp [runUploadTrace, attemptUploadStep, hlt]
      have h2 : (runUploadTrace false maxAttempts u (k + 1)).2
          = 1 + (runUploadTrace false maxAttempts (u + 1) k).2 := by
        simp [runUploadTrace, attemptUploadStep, hlt]
      have := ih (u + 1) (by omega)
      rw [h1, h2]
      omega
    · have h1 : (runUploadTrace false maxAttempts u (k + 1)).1
          = (runUploadTrace false maxAttempts u k).1 := by
        simp [runUploadTrace, attemptUploadStep, hlt]
      have h2 : (runUploadTrace false maxAttempts u (k + 1)).2
          = (runUploadTrace false maxAttempts u k).2 := by
        simp [runUploadTrace, attemptUploadStep, hlt]
      have := ih u hu
      rw [h1, h2]
      omega

/-- Witness for c7_attemptLimitSerialized: five serialized upload
    attempts against a fresh three-attempt assignment accept exactly
    three recordings. -/
theorem c7_attemptLimitSerialized_witness :
    (runUploadTrace false 3 0 5).2 ≤ 3 - 0
    ∧ (runUploadTrace false 3 0 5).1 = 0 + (runUploadTrace false 3 0 5).2
    ∧ (runUploadTrace false 3 0 5).2 ≤ 3 :=
  c7_attemptLimitSerialized 3 0 5 (by decide)

/- ----- C6 : flag-engine deduplication ----- -/

/-- Helper: updating severity and description does not change whether a
    flag matches a (student, flag type) pair unresolved. -/
theorem flagMatches_update_fields (sid : Nat) (ft : String) (e : FlagEmission)
    (f : StudentFlag) :
    flagMatches sid ft { f with severity := e.severity, description := e.description }
      = flagMatches sid ft f := by
  simp [flagMatches]

/-- Helper: the in-place update leaves every pair's unresolved count
    unchanged. -/
theorem unresolvedCount_updateUnresolvedFlag (e : FlagEmission) (l : List StudentFlag)
    (sid : Nat) (ft : String) :
    unresolvedCount (updateUnresolvedFlag e l) sid ft = unresolvedCount l sid ft := by
  induction l with
  | nil => rfl
  | cons f rest ih =>
    unfold updateUnresolvedFlag
    by_cases hm : flagMatches e.student_id e.flag_type f = true
    · rw [if_pos hm]
      unfold unresolvedCount
      rw [List.filter_cons, List.filter_cons, flagMatches_update_fields]
      cases h : flagMatches sid ft f <;> simp [h]
    · rw [if_neg hm]
      unfold unresolvedCount at ih ⊢
      rw [List.filter_cons, List.filter_cons]
      cases h : flagMatches sid ft f <;> simp [h, ih]

/-- Helper: no stored flag of a pair is unresolved exactly when the
    pair's unresolved count is zero. -/
theorem any_flagMatches_false_iff (l : List StudentFlag) (sid : Nat) (ft : String) :
    l.any (flagMatches sid ft) = false ↔ unresolvedCount l sid ft = 0 := by
  unfold unresolvedCount
  rw [List.any_eq_false, List.length_eq_zero, List.filter_eq_nil_iff]

/-- Helper: the unresolved count after materializing one emission: the
    emission's own pair goes from zero to one when it had no unresolved
    flag; every other count is unchanged. -/
theorem unresolvedCount_applyFlagEmission (l : List StudentFlag) (e : FlagEmission)
    (sid : Nat) (ft : String) :
    unresolvedCount (applyFlagEmission l e) sid ft
      = if sid = e.student_id ∧ ft = e.flag_type ∧ unresolvedCount l sid ft = 0
        then unresolvedCount l sid ft + 1
        else unresolvedCount l sid ft := by
  unfold applyFlagEmission
  by_cases hany : l.any (flagMatches e.student_id e.flag_type) = true
  · rw [if_pos hany, unresolvedCount_updateUnresolvedFlag]
    have hc : unresolvedCount l e.student_id e.flag_type ≠ 0 := by
      intro h0
      rw [← any_flagMatches_false_iff] at h0
      rw [h0] at hany
      exact Bool.noConfusion hany
    rw [if_neg ?hne]
    case hne =>
      rintro ⟨h1, h2, h3⟩
      rw [h1, h2] at h3
      exact hc h3
  · rw [if_neg hany]
    have hfalse : l.any (flagMatches e.student_id e.flag_type) = false := by
      revert hany
      cases l.any (flagMatches e.student_id e.flag_type) <;> simp
    have h0 : unresolvedCount l e.student_id e.flag_type = 0 :=
      (any_flagMatches_false_iff l e.student_id e.flag_type).mp hfalse
    by_cases hpair : sid = e.student_id ∧ ft = e.flag_type
    · have h0' : unresolvedCount l sid ft = 0 := by
        rw [hpair.1, hpair.2]
        exact h0
      rw [if_pos ⟨hpair.1, hpair.2, h0'⟩]
      unfold unresolvedCount
      rw [List.filter_append]
      have hm : flagMatches sid ft
          { id := l.length, student_id := e.student_id, flag_type := e.flag_type,
            severity := e.severity, description := e.description, resolved := false,
            resolution_notes := none } = true := by
        simp [flagMatches, hpair.1, hpair.2]
      simp [hm]
    · rw [if_neg (by tauto)]
      unfold unresolvedCount
      rw [List.filter_append]
      have hm : flagMatches sid ft
          { id := l.length, student_id := e.student_id, flag_type := e.flag_type,
            severity := e.severity, description := e.description, resolved := false,
            resolution_notes := none } = false := by
        simp only [flagMatches, Bool.not_false, Bool.true_and, Bool.and_eq_false_iff,
          beq_eq_false_iff_ne, ne_eq]
        by_cases h1 : e.student_id = sid
        · right
          intro h2
          exact hpair ⟨h1.symm, h2.symm⟩
        · left
          exact fun hh => (by simp [hh] at h1)
      simp [hm]

/-- C6: the flag engine (modelled from spec section 4.3, the analytics
    backend being absent from src/) preserves the at-most-one-unresolved
    flag invariant per (student, flag type) pair, and a pair that
    already has an unresolved flag still has exactly one - never two -
    after any re-run: re-running updates severity and description in
    place instead of creating a duplicate. -/
theorem c6_flagEngineDedup (flags : List StudentFlag) (emissions : List FlagEmission)
    (hinv : ∀ sid ft, unresolvedCount flags sid ft ≤ 1) :
    (∀ sid ft, unresolvedCount (runFlagEngine flags emissions) sid ft ≤ 1)
    ∧ (∀ sid ft, unresolvedCount flags sid ft = 1 →
        unresolvedCount (runFlagEngine flags emissions) sid ft = 1) := by
  induction emissions generalizing flags with
  | nil => exact ⟨hinv, fun sid ft h => h⟩
  | cons e rest ih =>
    have hstep : ∀ sid ft, unresolvedCount (applyFlagEmission flags e) sid ft ≤ 1 := by
      intro sid ft
      rw [unresolvedCount_applyFlagEmission]
      split_ifs with h
      · rcases h with ⟨-, -, h0⟩
        omega
      · exact hinv sid ft
    have hstep1 : ∀ sid ft, unresolvedCount flags sid ft = 1 →
        unresolvedCount (applyFlagEmission flags e) sid ft = 1 := by
      intro sid ft h1
      rw [unresolvedCount_applyFlagEmission]
      split_ifs with h
      · rcases h with ⟨-, -, h0⟩
        omega
      · exact h1
    have hrest := ih (applyFlagEmission flags e) hstep
    exact ⟨hrest.1, fun sid ft h1 => hrest.2 sid ft (hstep1 sid ft h1)⟩

/-- Witness for c6_flagEngineDedup: re-running the engine over a store
    that already holds an unresolved submission-gap flag for student 9
    leaves exactly one unresolved flag for that pair. -/
theorem c6_flagEngineDedup_witness :
    unresolvedCount (runFlagEngine flagStoreExample flagEmissionsExample)
      9 "submission_gap" = 1 := by
  have h := c6_flagEngineDedup flagStoreExample flagEmissionsExample
    (fun sid ft => by
      have hle := List.length_filter_le (flagMatches sid ft) flagStoreExample
      simpa [unresolvedCount] using hle)
  exact h.2 9 "submission_gap" (by decide)

/- ----- C5 : file-upload validation ----- -/

/-- C5: validateFileUpload accepts exactly when the payload size is
    within the (default 10 MB) ceiling, the lowercased extension exists
    and lies in the allowed set whenever one is configured, and the file
    name does not end in a dangerous extension; an oversized payload is
    rejected with the size error and a disallowed extension with the
    type error. -/
theorem c5_validateFileUpload_spec (file : JsFile) (options : FileUploadOptions) :
    ((validateFileUpload file options).isValid = true ↔
      (file.size ≤ effectiveMaxSize options * 1024 * 1024
        ∧ (options.allowedTypes.getD [] = []
            ∨ (fileExtension file.name ≠ ""
               ∧ fileExtension file.name ∈ options.allowedTypes.getD []))
        ∧ hasDangerousName file.name = false))
    ∧ (effectiveMaxSize options * 1024 * 1024 < file.size →
        (validateFileUpload file options).isValid = false
        ∧ fileSizeMsg (effectiveMaxSize options) ∈ (validateFileUpload file options).errors)
    ∧ (options.allowedTypes.getD [] ≠ [] →
        fileExtension file.name ∉ options.allowedTypes.getD [] →
        (validateFileUpload file options).isValid = false
        ∧ fileTypeMsg (options.allowedTypes.getD []) ∈ (validateFileUpload file options).errors) := by
  simp only [validateFileUpload]
  split_ifs <;>
    simp_all [List.length_pos, not_or, List.isEmpty_iff, not_lt, not_le,
      List.eq_nil_iff_forall_not_mem]
  all_goals tauto

/-- Witness for c5_validateFileUpload_spec: an 11 MB executable upload
    under the default options is rejected, carrying the size error. -/
theorem c5_validateFileUpload_spec_witness :
    (validateFileUpload { name := "run.exe", size := 11534336 }
        { maxSize := none, allowedTypes := none }).isValid = false
    ∧ fileSizeMsg (effectiveMaxSize { maxSize := none, allowedTypes := none })
        ∈ (validateFileUpload { name := "run.exe", size := 11534336 }
            { maxSize := none, allowedTypes := none }).errors :=
  (c5_validateFileUpload_spec { name := "run.exe", size := 11534336 }
    { maxSize := none, allowedTypes := none }).2.1 (by decide)

/- ----- C10 : password validation ----- -/

/-- Helper: counting a message in a conditional singleton block. -/
theorem count_ite_singleton (m m' : String) (c : Prop) [Decidable c] :
    List.count m (if c then [m'] else []) = if c then (if m' = m then 1 else 0) else 0 := by
  split_ifs <;> simp_all [List.count_cons, List.count_nil]

/-- Helper: counting a message in a conditionally omitted singleton
    block. -/
theorem count_ite_singleton_inv (m m' : String) (c : Prop) [Decidable c] :
    List.count m (if c then [] else [m']) = if c then 0 else (if m' = m then 1 else 0) := by
  split_ifs <;> simp_all [List.count_cons, List.count_nil]

/-- C10: validatePassword accepts exactly when the password has length
    at least 8, contains an uppercase letter, a lowercase letter, a
    digit and a special character, and its lowercased form contains none
    of the common patterns; and the error list carries exactly one
    message per violated rule. -/
theorem c10_validatePassword_spec (p : String) :
    ((validatePassword p).isValid = true ↔
      (8 ≤ p.length
        ∧ (∃ c ∈ p.data, 'A' ≤ c ∧ c ≤ 'Z')
        ∧ (∃ c ∈ p.data, 'a' ≤ c ∧ c ≤ 'z')
        ∧ (∃ c ∈ p.data, '0' ≤ c ∧ c ≤ '9')
        ∧ (∃ c ∈ p.data, isSpecialChar c = true)
        ∧ (∀ pat ∈ commonPatterns, strIncludes (strToLower p) pat = false)))
    ∧ (validatePassword p).errors.count passwordLengthMsg
        = (if p.length < 8 then 1 else 0)
    ∧ (validatePassword p).errors.count passwordUpperMsg
        = (if p.data.any isUppercaseChar then 0 else 1)
    ∧ (validatePassword p).errors.count passwordLowerMsg
        = (if p.data.any isLowercaseChar then 0 else 1)
    ∧ (validatePassword p).errors.count passwordDigitMsg
        = (if p.data.any isDigitChar then 0 else 1)
    ∧ (validatePassword p).errors.count passwordSpecialMsg
        = (if p.data.any isSpecialChar then 0 else 1)
    ∧ (validatePassword p).errors.count passwordCommonMsg
        = (if commonPatterns.any (fun pat => strIncludes (strToLower p) pat)
           then 1 else 0) := by
  have dul : passwordUpperMsg ≠ passwordLengthMsg := by decide
  have dll : passwordLowerMsg ≠ passwordLengthMsg := by decide
  have ddl : passwordDigitMsg ≠ passwordLengthMsg := by decide
  have dsl : passwordSpecialMsg ≠ passwordLengthMsg := by decide
  have dcl : passwordCommonMsg ≠ passwordLengthMsg := by decide
  have dlu : passwordLengthMsg ≠ passwordUpperMsg := by decide
  have dlu2 : passwordLowerMsg ≠ passwordUpperMsg := by decide
  have ddu : passwordDigitMsg ≠ passwordUpperMsg := by decide
  have dsu : passwordSpecialMsg ≠ passwordUpperMsg := by decide
  have dcu : passwordCommonMsg ≠ passwordUpperMsg := by decide
  have dlw : passwordLengthMsg ≠ passwordLowerMsg := by decide
  have duw : passwordUpperMsg ≠ passwordLowerMsg := by decide
  have ddw : passwordDigitMsg ≠ passwordLowerMsg := by decide
  have dsw : passwordSpecialMsg ≠ passwordLowerMsg := by decide
  have dcw : passwordCommonMsg ≠ passwordLowerMsg := by decide
  have dld : passwordLengthMsg ≠ passwordDigitMsg := by decide
  have dud : passwordUpperMsg ≠ passwordDigitMsg := by decide
  have dwd : passwordLowerMsg ≠ passwordDigitMsg := by decide
  have dsd : passwordSpecialMsg ≠ passwordDigitMsg := by decide
  have dcd : passwordCommonMsg ≠ passwordDigitMsg := by decide
  have dls : passwordLengthMsg ≠ passwordSpecialMsg := by decide
  have dus : passwordUpperMsg ≠ passwordSpecialMsg := by decide
  have dws : passwordLowerMsg ≠ passwordSpecialMsg := by decide
  have dds : passwordDigitMsg ≠ passwordSpecialMsg := by decide
  have dcs : passwordCommonMsg ≠ passwordSpecialMsg := by decide
  have dlc : passwordLengthMsg ≠ passwordCommonMsg := by decide
  have duc : passwordUpperMsg ≠ passwordCommonMsg := by decide
  have dwc : passwordLowerMsg ≠ passwordCommonMsg := by decide
  have ddc : passwordDigitMsg ≠ passwordCommonMsg := by decide
  have dsc : passwordSpecialMsg ≠ passwordCommonMsg := by decide
  refine ⟨?_, ?_, ?_, ?_, ?_, ?_, ?_⟩
  · simp only [validatePassword]
    simp [List.isEmpty_iff, List.append_eq_nil, not_lt, List.any_eq_true,
      List.any_eq_false, isUppercaseChar, isLowercaseChar, isDigitChar,
      Bool.and_eq_true, decide_eq_true_eq, Bool.not_eq_true]
  · simp only [validatePassword]
    simp [List.count_append, count_ite_singleton, count_ite_singleton_inv,
      dul, dll, ddl, dsl, dcl, ite_self]
  · simp only [validatePassword]
    simp [List.count_append, count_ite_singleton, count_ite_singleton_inv,
      dlu, dlu2, ddu, dsu, dcu, ite_self]
  · simp only [validatePassword]
    simp [List.count_append, count_ite_singleton, count_ite_singleton_inv,
      dlw, duw, ddw, dsw, dcw, ite_self]
  · simp only [validatePassword]
    simp [List.count_append, count_ite_singleton, count_ite_singleton_inv,
      dld, dud, dwd, dsd, dcd, ite_self]
  · simp only [validatePassword]
    simp [List.count_append, count_ite_singleton, count_ite_singleton_inv,
      dls, dus, dws, dds, dcs, ite_self]
  · simp only [validatePassword]
    simp [List.count_append, count_ite_singleton, count_ite_singleton_inv,
      dlc, duc, dwc, ddc, dsc, ite_self]

/- ----- C10 witness ----- -/

/-- Witness for c10_validatePassword_spec: a concrete strong password is
    accepted. -/
theorem c10_validatePassword_spec_witness :
    (validatePassword "XyZt9$kw").isValid = true :=
  ((c10_validatePassword_spec "XyZt9$kw").1).mpr (by decide)

/- ----- C3 : dashboard versus one-decimal rounding ----- -/

/-- C3 is refuted as stated: the dashboard's completion-rate figures use
    Math.round (AdvancedAnalytics.tsx lines 152 and 288), which rounds
    to the nearest integer, not to one decimal place; at a completion
    rate of 71.66 the dashboard shows 72 while the one-decimal rule
    yields 71.7. -/
theorem c3_counterexample :
    renderStudentsCompletionRate (7166 / 100) = 72
    ∧ renderOverviewAvgCompletion (some (7166 / 100)) = 72
    ∧ roundToOneDecimal (7166 / 100) = 717 / 10
    ∧ ((renderStudentsCompletionRate (7166 / 100) : ℚ)
        ≠ roundToOneDecimal (7166 / 100)) := by
  have h1 : (Int.floor ((7166 / 100 : ℚ) + 1 / 2) : ℤ) = 72 := by
    rw [Int.floor_eq_iff]
    norm_num
  have h2 : (Int.floor ((7166 / 100 : ℚ) * 10 + 1 / 2) : ℤ) = 717 := by
    rw [Int.floor_eq_iff]
    norm_num
  have h3 : renderStudentsCompletionRate (7166 / 100) = 72 := by
    unfold renderStudentsCompletionRate jsMathRound
    exact h1
  have h4 : roundToOneDecimal (7166 / 100) = 717 / 10 := by
    unfold roundToOneDecimal
    rw [h2]
    norm_num
  refine ⟨h3, ?_, h4, ?_⟩
  · unfold renderOverviewAvgCompletion
    simpa [jsMathRound] using h1
  · rw [h3, h4]
    norm_num

/-- C3 (amended): both dashboard spots round completion rates with
    Math.round to the nearest integer, while toFixed(1) on the average
    scores does realize the spec's one-decimal rule; consequently the
    dashboard completion figure agrees with the one-decimal-rounded
    value exactly when that one-decimal rounding lands on an integer. -/
theorem c3_roundingRules (r : ℚ) :
    renderStudentsCompletionRate r = renderOverviewAvgCompletion (some r)
    ∧ renderStudentsAvgScore r = roundToOneDecimal r
    ∧ ((renderStudentsCompletionRate r : ℚ) = roundToOneDecimal r ↔
        ∃ k : ℤ, roundToOneDecimal r = (k : ℚ)) := by
  refine ⟨rfl, rfl, ?_, ?_⟩
  · intro h
    exact ⟨renderStudentsCompletionRate r, h.symm⟩
  · rintro ⟨k, hk⟩
    unfold roundToOneDecimal at hk
    have h10 : (Int.floor (r * 10 + 1 / 2) : ℤ) = 10 * k := by
      have hk2 : ((Int.floor (r * 10 + 1 / 2) : ℤ) : ℚ) = 10 * k := by
        rw [div_eq_iff (by norm_num : (10 : ℚ) ≠ 0)] at hk
        linarith
      exact_mod_cast hk2
    have hbounds := Int.floor_eq_iff.mp h10
    have hfloor : (Int.floor (r + 1 / 2) : ℤ) = k := by
      rw [Int.floor_eq_iff]
      push_cast at hbounds ⊢
      constructor
      · linarith [hbounds.1]
      · linarith [hbounds.2]
    unfold renderStudentsCompletionRate jsMathRound roundToOneDecimal
    rw [hfloor, h10]
    push_cast
    ring

/-- Witness for c3_roundingRules: at a completion rate of exactly 71 the
    one-decimal rounding is the integer 71, so the dashboard figure
    agrees with it. -/
theorem c3_roundingRules_witness :
    (renderStudentsCompletionRate 71 : ℚ) = roundToOneDecimal 71 := by
  have hfl : (Int.floor ((71 : ℚ) * 10 + 1 / 2) : ℤ) = 710 := by
    rw [Int.floor_eq_iff]
    norm_num
  refine (c3_roundingRules 71).2.2.mpr ⟨71, ?_⟩
  unfold roundToOneDecimal
  rw [hfl]
  norm_num

/- ----- C9 : rate limiter ----- -/

/-- Helper: on a sorted requests array the front-pruning while loop
    removes exactly the timestamps that fell out of the window. -/
theorem rateLimiterPrune_eq_filter (timeWindow now : Nat) (l : List Nat)
    (hl : l.Sorted (· ≤ ·)) :
    rateLimiterPrune timeWindow now l
      = l.filter (fun t => decide (now - t ≤ timeWindow)) := by
  induction l with
  | nil => rfl
  | cons a tl ih =>
    rw [List.sorted_cons] at hl
    by_cases h : timeWindow < now - a
    · have h2 : ¬ (now - a ≤ timeWindow) := by omega
      unfold rateLimiterPrune at ih ⊢
      rw [List.dropWhile_cons, List.filter_cons]
      rw [if_pos (by simpa using h), if_neg (by simpa using h2)]
      exact ih hl.2
    · have h2 : now - a ≤ timeWindow := by omega
      unfold rateLimiterPrune
      rw [List.dropWhile_cons, List.filter_cons]
      rw [if_neg (by simpa using h), if_pos (by simpa using h2)]
      congr 1
      symm
      apply List.filter_eq_self.mpr
      intro x hx
      have hax : a ≤ x := hl.1 x hx
      simpa using (by omega : now - x ≤ timeWindow)

/-- Helper: running the limiter over concatenated call sequences. -/
theorem rateLimiterRun_append (maxR W : Nat) (s : List Nat) (l₁ l₂ : List Nat) :
    rateLimiterRun maxR W s (l₁ ++ l₂)
      = ((rateLimiterRun maxR W (rateLimiterRun maxR W s l₁).1 l₂).1,
         (rateLimiterRun maxR W s l₁).2
           ++ (rateLimiterRun maxR W (rateLimiterRun maxR W s l₁).1 l₂).2) := by
  induction l₁ generalizing s with
  | nil => simp [rateLimiterRun]
  | cons a tl ih =>
    simp only [List.cons_append, rateLimiterRun, List.append_eq]
    rw [ih]
    simp [List.append_assoc]

/-- Helper: over a nondecreasing call history starting from the fresh
    empty array, the admitted calls form a subsequence of the calls, the
    requests array stays sorted, and pruning at any time past the whole
    history leaves exactly the admitted calls still inside the window. -/
theorem rateLimiterRun_invariant (maxR W : Nat) (calls : List Nat)
    (hs : calls.Sorted (· ≤ ·)) :
    (rateLimiterRun maxR W [] calls).2.Sublist calls
    ∧ (rateLimiterRun maxR W [] calls).1.Sorted (· ≤ ·)
    ∧ ∀ now, (∀ t ∈ calls, t ≤ now) →
        rateLimiterPrune W now (rateLimiterRun maxR W [] calls).1
          = (rateLimiterRun maxR W [] calls).2.filter (fun t => decide (now - t ≤ W)) := by
  induction calls using List.reverseRecOn with
  | nil => exact ⟨List.nil_sublist _, List.sorted_nil, fun now _ => rfl⟩
  | append_singleton l m ih =>
    have hl : l.Sorted (· ≤ ·) :=
      List.Pairwise.sublist (List.sublist_append_left l [m]) hs
    have hm : ∀ t ∈ l, t ≤ m := by
      have hpa := (List.pairwise_append.mp hs).2.2
      intro t ht
      exact hpa t ht m (List.mem_singleton_self m)
    obtain ⟨ih1, ih2, ih3⟩ := ih hl
    have hrun := rateLimiterRun_append maxR W [] l [m]
    set s₁ := (rateLimiterRun maxR W [] l).1 with hs₁
    set adm₁ := (rateLimiterRun maxR W [] l).2 with hadm₁
    have hrun2 : rateLimiterRun maxR W s₁ [m]
        = ((rateLimiterCall maxR W s₁ m).1,
           if (rateLimiterCall maxR W s₁ m).2 then [m] else []) := by
      simp [rateLimiterRun]
    have hpruned : rateLimiterPrune W m s₁ = adm₁.filter (fun t => decide (m - t ≤ W)) :=
      ih3 m hm
    have hadm_sorted : adm₁.Sorted (· ≤ ·) := List.Pairwise.sublist ih1 hl
    have hadm_le : ∀ t ∈ adm₁, t ≤ m := fun t ht => hm t (ih1.subset ht)
    have hpr_sorted : (rateLimiterPrune W m s₁).Sorted (· ≤ ·) := by
      rw [hpruned]
      exact List.Pairwise.filter _ hadm_sorted
    have hpr_le : ∀ t ∈ rateLimiterPrune W m s₁, t ≤ m := by
      rw [hpruned]
      intro t ht
      exact hadm_le t (List.mem_of_mem_filter ht)
    by_cases hok : maxR ≤ (rateLimiterPrune W m s₁).length
    · have hcall : rateLimiterCall maxR W s₁ m = (rateLimiterPrune W m s₁, false) := by
        unfold rateLimiterCall
        rw [if_pos hok]
      have hstate : (rateLimiterRun maxR W [] (l ++ [m])).1 = rateLimiterPrune W m s₁ := by
        rw [hrun, hrun2, hcall]
      have hadm : (rateLimiterRun maxR W [] (l ++ [m])).2 = adm₁ := by
        rw [hrun, hrun2, hcall]
        simp
      refine ⟨?_, ?_, ?_⟩
      · rw [hadm]
        exact ih1.trans (List.sublist_append_left l [m])
      · rw [hstate]
        exact hpr_sorted
      · intro now hnow
        have hmn : m ≤ now := hnow m (by simp)
        rw [hstate, hadm]
        rw [rateLimiterPrune_eq_filter W now _ hpr_sorted, hpruned, List.filter_filter]
        apply List.filter_congr
        intro t ht
        by_cases h1 : now - t ≤ W <;> by_cases h2 : m - t ≤ W <;> simp [h1, h2]
        omega
    · have hcall : rateLimiterCall maxR W s₁ m
          = (rateLimiterPrune W m s₁ ++ [m], true) := by
        unfold rateLimiterCall
        rw [if_neg hok]
      have hstate : (rateLimiterRun maxR W [] (l ++ [m])).1
          = rateLimiterPrune W m s₁ ++ [m] := by
        rw [hrun, hrun2, hcall]
      have hadm : (rateLimiterRun maxR W [] (l ++ [m])).2 = adm₁ ++ [m] := by
        rw [hrun, hrun2, hcall]
        simp
      have hsorted_state : (rateLimiterPrune W m s₁ ++ [m]).Sorted (· ≤ ·) := by
        apply List.pairwise_append.mpr
        refine ⟨hpr_sorted, List.sorted_singleton m, ?_⟩
        intro x hx y hy
        rw [List.mem_singleton] at hy
        subst hy
        exact hpr_le x hx
      refine ⟨?_, ?_, ?_⟩
      · rw [hadm]
        exact List.Sublist.append ih1 (List.Sublist.refl [m])
      · rw [hstate]
        exact hsorted_state
      · intro now hnow
        have hmn : m ≤ now := hnow m (by simp)
        rw [hstate, hadm]
        rw [rateLimiterPrune_eq_filter W now _ hsorted_state, List.filter_append,
          List.filter_append]
        congr 1
        rw [hpruned, List.filter_filter]
        apply List.filter_congr
        intro t ht
        by_cases h1 : now - t ≤ W <;> by_cases h2 : m - t ≤ W <;> simp [h1, h2]
        omega

/-- Helper: over any nondecreasing call history, the limiter admits at
    most maxRequests calls inside any closed window of length
    timeWindow. -/
theorem rateLimiter_window_bound (maxR W : Nat) (calls : List Nat)
    (hsorted : calls.Sorted (· ≤ ·)) (a : Nat) :
    ((rateLimiterRun maxR W [] calls).2.filter
      (fun t => decide (a ≤ t ∧ t ≤ a + W))).length ≤ maxR := by
  induction calls using List.reverseRecOn with
  | nil => simp [rateLimiterRun]
  | append_singleton l m ih =>
    have hl : l.Sorted (· ≤ ·) :=
      List.Pairwise.sublist (List.sublist_append_left l [m]) hsorted
    have hm : ∀ t ∈ l, t ≤ m := by
      have hpa := (List.pairwise_append.mp hsorted).2.2
      intro t ht
      exact hpa t ht m (List.mem_singleton_self m)
    obtain ⟨ih1, ih2, ih3⟩ := rateLimiterRun_invariant maxR W l hl
    have hih := ih hl
    have hrun := rateLimiterRun_append maxR W [] l [m]
    have hrun2 : rateLimiterRun maxR W (rateLimiterRun maxR W [] l).1 [m]
        = ((rateLimiterCall maxR W (rateLimiterRun maxR W [] l).1 m).1,
           if (rateLimiterCall maxR W (rateLimiterRun maxR W [] l).1 m).2
           then [m] else []) := by
      simp [rateLimiterRun]
    have hpruned : rateLimiterPrune W m (rateLimiterRun maxR W [] l).1
        = (rateLimiterRun maxR W [] l).2.filter (fun t => decide (m - t ≤ W)) :=
      ih3 m hm
    by_cases hok : maxR ≤ (rateLimiterPrune W m (rateLimiterRun maxR W [] l).1).length
    · have hcall : rateLimiterCall maxR W (rateLimiterRun maxR W [] l).1 m
          = (rateLimiterPrune W m (rateLimiterRun maxR W [] l).1, false) := by
        unfold rateLimiterCall
        rw [if_pos hok]
      have hadm : (rateLimiterRun maxR W [] (l ++ [m])).2
          = (rateLimiterRun maxR W [] l).2 := by
        rw [hrun, hrun2, hcall]
        simp
      rw [hadm]
      exact hih
    · have hcall : rateLimiterCall maxR W (rateLimiterRun maxR W [] l).1 m
          = (rateLimiterPrune W m (rateLimiterRun maxR W [] l).1 ++ [m], true) := by
        unfold rateLimiterCall
        rw [if_neg hok]
      have hadm : (rateLimiterRun maxR W [] (l ++ [m])).2
          = (rateLimiterRun maxR W [] l).2 ++ [m] := by
        rw [hrun, hrun2, hcall]
        simp
      rw [hadm, List.filter_append]
      by_cases hw : a ≤ m ∧ m ≤ a + W
      · have hfm : [m].filter (fun t => decide (a ≤ t ∧ t ≤ a + W)) = [m] := by
          simp [hw.1, hw.2]
        rw [hfm, List.length_append]
        have hlt : (rateLimiterPrune W m (rateLimiterRun maxR W [] l).1).length < maxR :=
          Nat.lt_of_not_le hok
        have hsub : List.Sublist
            ((rateLimiterRun maxR W [] l).2.filter (fun t => decide (a ≤ t ∧ t ≤ a + W)))
            ((rateLimiterRun maxR W [] l).2.filter (fun t => decide (m - t ≤ W))) := by
          apply List.monotone_filter_right
          intro t ht
          simp only [decide_eq_true_eq] at ht ⊢
          omega
        have hlen := hsub.length_le
        rw [← hpruned] at hlen
        simp only [List.length_singleton]
        omega
      · have hfm : [m].filter (fun t => decide (a ≤ t ∧ t ≤ a + W)) = [] := by
          simp only [List.filter_cons, List.filter_nil]
          rw [if_neg (by simpa using hw)]
        rw [hfm, List.append_nil]
        exact hih

/-- C9: over any nondecreasing sequence of call times, the closure
    created by createRateLimiter returns true only when strictly fewer
    than maxRequests previously admitted calls lie within the trailing
    timeWindow of the current call; consequently every closed window of
    length timeWindow contains at most maxRequests admitted calls. -/
theorem c9_rateLimiterBound (maxR W : Nat) (calls : List Nat) (now : Nat)
    (hsorted : (calls ++ [now]).Sorted (· ≤ ·)) :
    ((rateLimiterCall maxR W (rateLimiterRun maxR W [] calls).1 now).2 = true →
      ((rateLimiterRun maxR W [] calls).2.filter
        (fun t => decide (now - t ≤ W))).length < maxR)
    ∧ ∀ a : Nat,
        ((rateLimiterRun maxR W [] (calls ++ [now])).2.filter
          (fun t => decide (a ≤ t ∧ t ≤ a + W))).length ≤ maxR := by
  have hl : calls.Sorted (· ≤ ·) :=
    List.Pairwise.sublist (List.sublist_append_left calls [now]) hsorted
  have hm : ∀ t ∈ calls, t ≤ now := by
    have hpa := (List.pairwise_append.mp hsorted).2.2
    intro t ht
    exact hpa t ht now (List.mem_singleton_self now)
  obtain ⟨ih1, ih2, ih3⟩ := rateLimiterRun_invariant maxR W calls hl
  constructor
  · intro htrue
    have hpru := ih3 now hm
    unfold rateLimiterCall at htrue
    by_cases hok : maxR ≤ (rateLimiterPrune W now (rateLimiterRun maxR W [] calls).1).length
    · rw [if_pos hok] at htrue
      exact Bool.noConfusion htrue
    · rw [← hpru]
      omega
  · intro a
    exact rateLimiter_window_bound maxR W (calls ++ [now]) hsorted a

/-- Witness for c9_rateLimiterBound at a concrete trace: limiter with
    maxRequests 2 and timeWindow 10, one admitted call at time 0, next
    call at time 5. -/
theorem c9_rateLimiterBound_witness :
    ((rateLimiterCall 2 10 (rateLimiterRun 2 10 [] [0]).1 5).2 = true →
      ((rateLimiterRun 2 10 [] [0]).2.filter
        (fun t => decide (5 - t ≤ 10))).length < 2)
    ∧ ∀ a : Nat,
        ((rateLimiterRun 2 10 [] ([0] ++ [5])).2.filter
          (fun t => decide (a ≤ t ∧ t ≤ a + 10))).length ≤ 2 :=
  c9_rateLimiterBound 2 10 [0] 5 (by decide)
